import Mathlib

/-!
Verification development for the Fuel client facade (FuelClient.cc):
identifier resolution (two URL grammars), registry enrichment, and the
cache/remote fallback policy of the fetch orchestrator.

Strings are modelled as lists of characters.  The two POSIX/ECMAScript
regexes of FuelClientPrivate are embedded as deterministic scanners; this
is faithful because every repeated character class in them excludes the
character that the following piece of the pattern begins with, so greedy
maximal-munch scanning coincides with backtracking regex matching, and
std::regex_match anchors the pattern at both ends of the subject string.
-/

/-- Character class of the scheme piece of both regexes, alnum plus dot,
plus and minus (C locale alnum is ASCII letters and digits). -/
def isSchemeChar (c : Char) : Bool :=
  c.isAlphanum || c = '.' || c = '+' || c = '-'

/-- Whitespace as matched by the regex escape for space classes in the
default C locale: space, tab, newline, vertical tab, form feed, return. -/
def isSpaceChar (c : Char) : Bool :=
  c = ' ' || c = '\t' || c = '\n' || c = '\x0b' || c = '\x0c' || c = '\r'

/-- Character class of the server, version and owner pieces: anything but
a slash or whitespace. -/
def isHostChar (c : Char) : Bool :=
  if c = '/' then false else if isSpaceChar c then false else true

/-- Character class of the name piece: anything but a slash. -/
def isNameChar (c : Char) : Bool :=
  if c = '/' then false else true

/-- A slash, as a boolean predicate. -/
def isSlash (c : Char) : Bool :=
  if c = '/' then true else false

/-- Scan a non-empty maximal run of characters satisfying a predicate
(the regex piece class-plus); fails when the first character does not
satisfy it. -/
def takeWhile1 (p : Char → Bool) : List Char → Option (List Char × List Char)
  | [] => none
  | c :: cs => if p c then some (c :: cs.takeWhile p, cs.dropWhile p) else none

/-- Expect a literal string (first argument) at the front of the input,
returning the rest. -/
def expectStr : List Char → List Char → Option (List Char)
  | [], s => some s
  | _ :: _, [] => none
  | c :: cs, d :: ds => if c = d then expectStr cs ds else none

/-- Consume a non-empty maximal run of slashes (the regex piece
slash-plus). -/
def slashRun1 : List Char → Option (List Char)
  | [] => none
  | c :: cs => if c = '/' then some (cs.dropWhile isSlash) else none

/-- The literal path segment required between owner and name. -/
def modelsLit : List Char := ['m', 'o', 'd', 'e', 'l', 's']

/-- The literal separating scheme from server in both grammars. -/
def colonSlashSlash : List Char := [':', '/', '/']

theorem takeWhile_append_eq (p : Char → Bool) (xs rest : List Char)
    (hall : ∀ c ∈ xs, p c = true)
    (hrest : ∀ c, rest.head? = some c → p c = false) :
    (xs ++ rest).takeWhile p = xs ∧ (xs ++ rest).dropWhile p = rest := by
  induction xs with
  | nil =>
    simp only [List.nil_append]
    cases rest with
    | nil => simp
    | cons c cs =>
      have hc : p c = false := hrest c rfl
      simp [List.takeWhile_cons, List.dropWhile_cons, hc]
  | cons c cs ih =>
    have hc : p c = true := hall c (by simp)
    have ih' := ih fun d hd => hall d (by simp [hd])
    simp [List.takeWhile_cons, List.dropWhile_cons, hc, ih'.1, ih'.2]

theorem takeWhile1_append (p : Char → Bool) (xs rest : List Char)
    (hne : xs ≠ []) (hall : ∀ c ∈ xs, p c = true)
    (hrest : ∀ c, rest.head? = some c → p c = false) :
    takeWhile1 p (xs ++ rest) = some (xs, rest) := by
  cases xs with
  | nil => exact absurd rfl hne
  | cons c cs =>
    have hc : p c = true := hall c (by simp)
    have h := takeWhile_append_eq p cs rest (fun d hd => hall d (by simp [hd])) hrest
    simp [takeWhile1, hc, h.1, h.2]

theorem takeWhile1_ne_nil (p : Char → Bool) (s a b : List Char)
    (h : takeWhile1 p s = some (a, b)) : a ≠ [] := by
  cases s with
  | nil => simp [takeWhile1] at h
  | cons c cs =>
    simp only [takeWhile1] at h
    by_cases hc : p c = true
    · simp [hc] at h
      intro hnil
      rw [← h.1] at hnil
      exact List.cons_ne_nil _ _ hnil
    · simp [Bool.not_eq_true] at hc
      simp [hc] at h

theorem expectStr_append (lit rest : List Char) :
    expectStr lit (lit ++ rest) = some rest := by
  induction lit with
  | nil => rfl
  | cons c cs ih => simp [expectStr, ih]

theorem expectStr_eq_some (lit s r : List Char)
    (h : expectStr lit s = some r) : s = lit ++ r := by
  induction lit generalizing s with
  | nil => simpa [expectStr] using h
  | cons c cs ih =>
    cases s with
    | nil => simp [expectStr] at h
    | cons d ds =>
      simp only [expectStr] at h
      by_cases hd : c = d
      · subst hd
        simp only [if_pos rfl] at h
        simpa using ih ds h
      · simp [hd] at h

theorem slashRun1_eq (rest : List Char)
    (hrest : ∀ c, rest.head? = some c → isSlash c = false) :
    slashRun1 ('/' :: rest) = some rest := by
  have h := takeWhile_append_eq isSlash [] rest (by simp) hrest
  simp only [List.nil_append] at h
  simp [slashRun1, h.2]

theorem all_isSlash_replicate (k : Nat) :
    (List.replicate k '/').all isSlash = true := by
  simp only [List.all_eq_true, List.mem_replicate]
  rintro c ⟨-, rfl⟩
  rfl

theorem all_isSlash_false (l : List Char) (c : Char) (hc : c ∈ l)
    (hne : ¬ c = '/') : l.all isSlash = false := by
  rw [Bool.eq_false_iff]
  intro hall
  rw [List.all_eq_true] at hall
  have := hall c hc
  simp [isSlash, hne] at this

theorem isHostChar_not_slash (c : Char) (h : isHostChar c = true) :
    ¬ c = '/' := by
  intro hc
  subst hc
  simp [isHostChar] at h

theorem isNameChar_not_slash (c : Char) (h : isNameChar c = true) :
    ¬ c = '/' := by
  intro hc
  subst hc
  simp [isNameChar] at h

/-- Capture groups of the versioned model URL regex kModelURLRegexStr:
scheme, server, version, owner, name. -/
structure URLCaptures where
  scheme : List Char
  server : List Char
  version : List Char
  owner : List Char
  name : List Char
deriving DecidableEq

/-- Capture groups of the unique-name regex kModelUniqueNameRegexStr:
scheme, server, owner, name (no version segment). -/
structure UniqueNameCaptures where
  scheme : List Char
  server : List Char
  owner : List Char
  name : List Char
deriving DecidableEq

/-- Full-anchored match of kModelURLRegexStr, the versioned model URL
grammar scheme://server/version/owner/models/name with optional trailing
slashes, embedded as a deterministic scanner. -/
def matchModelURL (s : List Char) : Option URLCaptures :=
  (takeWhile1 isSchemeChar s).bind fun p1 =>
  (expectStr colonSlashSlash p1.2).bind fun r2 =>
  (takeWhile1 isHostChar r2).bind fun p3 =>
  (slashRun1 p3.2).bind fun r4 =>
  (takeWhile1 isHostChar r4).bind fun p5 =>
  (slashRun1 p5.2).bind fun r6 =>
  (takeWhile1 isHostChar r6).bind fun p7 =>
  (slashRun1 p7.2).bind fun r8 =>
  (expectStr modelsLit r8).bind fun r9 =>
  (slashRun1 r9).bind fun r10 =>
  (takeWhile1 isNameChar r10).bind fun p11 =>
  if p11.2.all isSlash then some ⟨p1.1, p3.1, p5.1, p7.1, p11.1⟩ else none

/-- Full-anchored match of kModelUniqueNameRegexStr, the unique-name
grammar scheme://server/owner/models/name with optional trailing slashes,
embedded as a deterministic scanner. -/
def matchUniqueName (s : List Char) : Option UniqueNameCaptures :=
  (takeWhile1 isSchemeChar s).bind fun p1 =>
  (expectStr colonSlashSlash p1.2).bind fun r2 =>
  (takeWhile1 isHostChar r2).bind fun p3 =>
  (slashRun1 p3.2).bind fun r4 =>
  (takeWhile1 isHostChar r4).bind fun p5 =>
  (slashRun1 p5.2).bind fun r6 =>
  (expectStr modelsLit r6).bind fun r7 =>
  (slashRun1 r7).bind fun r8 =>
  (takeWhile1 isNameChar r8).bind fun p9 =>
  if p9.2.all isSlash then some ⟨p1.1, p3.1, p5.1, p9.1⟩ else none

/-- Modelled from the spec: ServerConfig (declared in ClientConfig.hh,
whose source is not in the repository snapshot) is the ServerDescriptor
record url (scheme://host), apiVersion and localAlias, with the accessors
URL, Version and LocalName used by FuelClient.cc. -/
structure ServerConfig where
  url : List Char
  version : List Char
  localName : List Char
deriving DecidableEq

/-- Modelled from the spec: a default-constructed server descriptor is a
partial descriptor with every field empty. -/
def ServerConfig.empty : ServerConfig := ⟨[], [], []⟩

/-- Modelled from the spec: ModelIdentifier (header not in the snapshot)
is the Identifier record owner, name and originating-server
back-reference, with the accessors Owner, Name and Server used by
FuelClient.cc. -/
structure ModelIdentifier where
  owner : List Char
  name : List Char
  server : ServerConfig
deriving DecidableEq

/-- Modelled from the spec: a default-constructed identifier has empty
owner and name and an empty server descriptor. -/
def ModelIdentifier.empty : ModelIdentifier := ⟨[], [], ServerConfig.empty⟩

/-- Modelled from the spec: ClientConfig holds the ordered server
registry (Servers) and the cache root directory (CacheLocation). -/
structure ClientConfig where
  servers : List ServerConfig
  cacheLocation : List Char
deriving DecidableEq

/-- Modelled from the spec: a ModelIter as observed by FuelClient.cc, a
lazy iterator with a boolean conversion (construction can fail) and the
models it enumerates. -/
structure ModelIter where
  valid : Bool
  models : List ModelIdentifier
deriving DecidableEq

/-- Modelled from the spec: the cache contract consumed by FuelClient.cc,
AllModels, MatchingModels and SaveModel(id, data, overwrite). -/
structure LocalCache where
  allModels : ModelIter
  matchingModels : ModelIdentifier → ModelIter
  saveModel : ModelIdentifier → List Char → Bool → Bool

/-- HTTP methods of the REST helper; FuelClient.cc only issues GET. -/
inductive RESTMethod
  | GET
  | POST
  | DELETE
deriving DecidableEq

/-- A remote request as issued by FuelClient.cc: method, server URL, API
version and path (query, headers and body are always empty in the calls
this file models and are omitted). -/
structure RESTRequest where
  method : RESTMethod
  url : List Char
  version : List Char
  path : List Char
deriving DecidableEq

/-- The transport response contract: status code and body. -/
structure RESTResponse where
  statusCode : Nat
  data : List Char
deriving DecidableEq

/-- Result types constructed by FuelClient.cc (Result.hh is not in the
snapshot; the four constructors used there are modelled). -/
inductive ResultType
  | FETCH
  | FETCH_ERROR
  | UPLOAD_ERROR
  | DELETE_ERROR
deriving DecidableEq

/-- Modelled from the spec: the boolean conversion of a Result, true
exactly on the success outcome (Fetched) among the kinds built by
FuelClient.cc. -/
def resultSucceeded : ResultType → Bool
  | ResultType.FETCH => true
  | _ => false

/-- Modelled from the spec: common::joinPaths joins path components with
a slash separator. -/
def joinPaths (parts : List (List Char)) : List Char :=
  List.intercalate ['/'] parts

/-- The capture groups as used by FuelClient::ParseModelURL: the
versioned URL regex is tried first; when only the unique-name regex
matches, the version variable keeps its initial empty value. -/
def parseCaptures (modelURL : List Char) : Option URLCaptures :=
  match matchModelURL modelURL with
  | some m => some m
  | none =>
    match matchUniqueName modelURL with
    | some u => some ⟨u.scheme, u.server, [], u.owner, u.name⟩
    | none => none

/-- FuelClient::ParseModelURL: try the two grammars in order; on failure
return false leaving both out-parameters untouched; on success set the
working server descriptor's URL to scheme://server and its version to the
parsed version, replace it wholesale with the first registry entry whose
URL equals it (if any), then fill the identifier's owner, name and server
back-reference.  The warning side-channel is not modelled. -/
def ParseModelURL (config : ClientConfig) (modelURL : List Char)
    (srv : ServerConfig) (id : ModelIdentifier) :
    Bool × ServerConfig × ModelIdentifier :=
  match parseCaptures modelURL with
  | none => (false, srv, id)
  | some m =>
    let url := m.scheme ++ colonSlashSlash ++ m.server
    let srv1 : ServerConfig := { srv with url := url, version := m.version }
    let srv2 := match config.servers.find? fun s => s.url == url with
      | some s => s
      | none => srv1
    (true, srv2, { id with owner := m.owner, name := m.name, server := srv2 })

/-- FuelClient::ModelDetails: issue one GET to the server for
owner/models/name; on a non-200 status return FETCH_ERROR leaving the
output model untouched; on 200 set the output model to the decoded body
and return FETCH.  The transport and the JSON decoder are passed as
functions; the third component lists the requests issued. -/
def ModelDetails (rest : RESTRequest → RESTResponse)
    (parseModel : List Char → ServerConfig → ModelIdentifier)
    (server : ServerConfig) (id : ModelIdentifier) (model : ModelIdentifier) :
    ResultType × ModelIdentifier × List RESTRequest :=
  let path := joinPaths [id.owner, modelsLit, id.name]
  let req : RESTRequest := ⟨RESTMethod.GET, server.url, server.version, path⟩
  let resp := rest req
  if resp.statusCode ≠ 200 then (ResultType.FETCH_ERROR, model, [req])
  else (ResultType.FETCH, parseModel resp.data server, [req])

/-- FuelClient::Models(server): create the remote iterator over the
literal path segment of models; if its construction fails, fall back to
every model in the local cache.  The iterator factory (which wraps the
transport) is passed as a function. -/
def Models (cache : LocalCache)
    (create : ServerConfig → List Char → ModelIter)
    (server : ServerConfig) : ModelIter :=
  let iter := create server modelsLit
  if !iter.valid then cache.allModels
  else iter

/-- FuelClient::Models(server, id): consult the cache's MatchingModels
first and return it when non-empty; otherwise create a remote iterator
over owner/models/name.  The second component counts remote-iterator
constructions (each one invokes the transport). -/
def ModelsWithId (cache : LocalCache)
    (create : ServerConfig → List Char → ModelIter)
    (server : ServerConfig) (id : ModelIdentifier) : ModelIter × Nat :=
  let localIter := cache.matchingModels id
  if localIter.valid then (localIter, 0)
  else (create server (joinPaths [id.owner, modelsLit, id.name]), 1)

/-- FuelClient::DownloadModel(server, id): issue one GET for
owner/models/name.zip; on a non-200 status return FETCH_ERROR without
touching the cache; on 200 hand the body to SaveModel with overwrite
true, returning FETCH_ERROR if the save fails and FETCH otherwise.  The
second component lists the requests issued, the third counts SaveModel
invocations. -/
def DownloadModel (rest : RESTRequest → RESTResponse) (cache : LocalCache)
    (server : ServerConfig) (id : ModelIdentifier) :
    ResultType × List RESTRequest × Nat :=
  let path := joinPaths [id.owner, modelsLit, id.name ++ ".zip".toList]
  let req : RESTRequest := ⟨RESTMethod.GET, server.url, server.version, path⟩
  let resp := rest req
  if resp.statusCode ≠ 200 then (ResultType.FETCH_ERROR, [req], 0)
  else if !(cache.saveModel id resp.data true) then
    (ResultType.FETCH_ERROR, [req], 1)
  else (ResultType.FETCH, [req], 1)

/-- The name normalization applied by FuelClient::DownloadModel(url,
path) before deriving the on-disk location: lower-case every character,
then replace each space with an underscore. -/
def normalizeName (name : List Char) : List Char :=
  (name.map Char.toLower).map fun c => if c = ' ' then '_' else c

/-- FuelClient::DownloadModel(modelURL, path): parse the reference string
against default-constructed out-parameters; on parse failure return
FETCH_ERROR leaving the output path untouched; otherwise download and, on
success, set the output path to cacheLocation/models/owner/normalized
name. -/
def DownloadModelByUrl (config : ClientConfig)
    (rest : RESTRequest → RESTResponse) (cache : LocalCache)
    (modelURL : List Char) (path0 : List Char) : ResultType × List Char :=
  let parsed := ParseModelURL config modelURL ServerConfig.empty
    ModelIdentifier.empty
  if !parsed.1 then (ResultType.FETCH_ERROR, path0)
  else
    let srv := parsed.2.1
    let id := parsed.2.2
    let result := (DownloadModel rest cache srv id).1
    if resultSucceeded result then
      (result, joinPaths [config.cacheLocation, modelsLit, id.owner,
        normalizeName id.name])
    else (result, path0)

theorem isHostChar_isSlash (c : Char) (h : isHostChar c = true) :
    isSlash c = false := by
  by_cases hc : c = '/'
  · subst hc; simp [isHostChar] at h
  · simp [isSlash, hc]

theorem isNameChar_isSlash (c : Char) (h : isNameChar c = true) :
    isSlash c = false := by
  by_cases hc : c = '/'
  · subst hc; simp [isNameChar] at h
  · simp [isSlash, hc]

theorem isHostChar_isNameChar (c : Char) (h : isHostChar c = true) :
    isNameChar c = true := by
  have := isHostChar_not_slash c h
  simp [isNameChar, this]

theorem seg_head_not_slash (p : Char → Bool) (xs ys : List Char)
    (hne : xs ≠ []) (hall : ∀ c ∈ xs, p c = true)
    (himp : ∀ c, p c = true → isSlash c = false) :
    ∀ c, (xs ++ ys).head? = some c → isSlash c = false := by
  cases xs with
  | nil => exact absurd rfl hne
  | cons x xs' =>
    intro c hc
    simp only [List.cons_append, List.head?_cons, Option.some.injEq] at hc
    subst hc
    exact himp x (hall x (by simp))

theorem replicate_slash_head (k : Nat) :
    ∀ c, (List.replicate k '/').head? = some c → isNameChar c = false := by
  cases k with
  | zero => intro c hc; simp at hc
  | succ n =>
    intro c hc
    simp [List.replicate_succ] at hc
    subst hc
    rfl

theorem slashRun1_append (rest : List Char)
    (hrest : ∀ c, rest.head? = some c → isSlash c = false) :
    slashRun1 (['/'] ++ rest) = some rest :=
  slashRun1_eq rest hrest

theorem expectStr_owner_chain_none {α : Type} (owner tail : List Char)
    (f : List Char → Option α)
    (hall : ∀ c ∈ owner, isHostChar c = true)
    (howner : ¬ owner = modelsLit) :
    (expectStr modelsLit (owner ++ '/' :: tail)).bind
      (fun r => (slashRun1 r).bind f) = none := by
  cases he : expectStr modelsLit (owner ++ '/' :: tail) with
  | none => rfl
  | some r =>
    simp only [Option.some_bind]
    have hr : slashRun1 r = none := by
      cases r with
      | nil => rfl
      | cons d ds =>
        by_cases hd : d = '/'
        · exfalso
          subst hd
          have hs := expectStr_eq_some _ _ _ he
          have h1 := (takeWhile_append_eq isNameChar owner ('/' :: tail)
            (fun c hc => isHostChar_isNameChar c (hall c hc))
            (by intro c hc; simp at hc; subst hc; decide)).1
          have h2 := (takeWhile_append_eq isNameChar modelsLit ('/' :: ds)
            (by decide) (by intro c hc; simp at hc; subst hc; decide)).1
          rw [hs, h2] at h1
          exact howner h1.symm
        · simp [slashRun1, hd]
    rw [hr]
    rfl

theorem parseCaptures_of_matchURL (url : List Char) (m : URLCaptures)
    (h : matchModelURL url = some m) : parseCaptures url = some m := by
  unfold parseCaptures
  rw [h]

theorem parseCaptures_none (url : List Char)
    (h1 : matchModelURL url = none) (h2 : matchUniqueName url = none) :
    parseCaptures url = none := by
  unfold parseCaptures
  rw [h1, h2]

theorem ParseModelURL_of_none (config : ClientConfig) (url : List Char)
    (srv : ServerConfig) (id : ModelIdentifier)
    (h : parseCaptures url = none) :
    ParseModelURL config url srv id = (false, srv, id) := by
  unfold ParseModelURL
  rw [h]

/-- The server descriptor ParseModelURL resolves to when a grammar
matched: the first registry entry with the parsed URL, else the working
descriptor updated with the parsed URL and version. -/
def psrv (config : ClientConfig) (srv : ServerConfig) (m : URLCaptures) :
    ServerConfig :=
  match config.servers.find? fun s =>
      s.url == m.scheme ++ colonSlashSlash ++ m.server with
  | some s => s
  | none =>
    { srv with url := m.scheme ++ colonSlashSlash ++ m.server, version := m.version }

theorem ParseModelURL_eq_some (config : ClientConfig) (url : List Char)
    (srv : ServerConfig) (id : ModelIdentifier) (m : URLCaptures)
    (h : parseCaptures url = some m) :
    ParseModelURL config url srv id =
      (true, psrv config srv m,
       { id with owner := m.owner, name := m.name, server := psrv config srv m }) := by
  unfold ParseModelURL psrv
  rw [h]
theorem matchModelURL_owner_name_ne (s : List Char) (m : URLCaptures)
    (h : matchModelURL s = some m) : m.owner ≠ [] ∧ m.name ≠ [] := by
  unfold matchModelURL at h
  simp only [Option.bind_eq_some] at h
  obtain ⟨p1, h1, r2, h2, p3, h3, r4, h4, p5, h5, r6, h6, p7, h7, r8, h8, r9,
    h9, r10, h10, p11, h11, hfin⟩ := h
  by_cases hall : p11.2.all isSlash = true
  · rw [if_pos hall] at hfin
    injection hfin with hm
    subst hm
    exact ⟨takeWhile1_ne_nil isHostChar r6 p7.1 p7.2 h7,
      takeWhile1_ne_nil isNameChar r10 p11.1 p11.2 h11⟩
  · rw [if_neg hall] at hfin
    cases hfin

theorem matchUniqueName_owner_name_ne (s : List Char) (m : UniqueNameCaptures)
    (h : matchUniqueName s = some m) : m.owner ≠ [] ∧ m.name ≠ [] := by
  unfold matchUniqueName at h
  simp only [Option.bind_eq_some] at h
  obtain ⟨p1, h1, r2, h2, p3, h3, r4, h4, p5, h5, r6, h6, r7, h7, r8, h8, p9,
    h9, hfin⟩ := h
  by_cases hall : p9.2.all isSlash = true
  · rw [if_pos hall] at hfin
    injection hfin with hm
    subst hm
    exact ⟨takeWhile1_ne_nil isHostChar r4 p5.1 p5.2 h5,
      takeWhile1_ne_nil isNameChar r8 p9.1 p9.2 h9⟩
  · rw [if_neg hall] at hfin
    cases hfin

theorem parseCaptures_owner_name_ne (url : List Char) (m : URLCaptures)
    (h : parseCaptures url = some m) : m.owner ≠ [] ∧ m.name ≠ [] := by
  unfold parseCaptures at h
  cases h1 : matchModelURL url with
  | some m1 =>
    rw [h1] at h
    injection h with h
    subst h
    exact matchModelURL_owner_name_ne url m1 h1
  | none =>
    rw [h1] at h
    cases h2 : matchUniqueName url with
    | none => rw [h2] at h; cases h
    | some u =>
      rw [h2] at h
      injection h with h
      subst h
      exact matchUniqueName_owner_name_ne url u h2

/-- A sample server descriptor used to instantiate theorems. -/
def sampleServer : ServerConfig :=
  ⟨"https://srv.org".toList, "1.0".toList, "local".toList⟩

/-- A sample identifier used to instantiate theorems. -/
def sampleId : ModelIdentifier :=
  ⟨"alice".toList, "Beer".toList, ServerConfig.empty⟩

/-- A cache whose MatchingModels always yields a non-empty iterator. -/
def hitCache : LocalCache :=
  ⟨⟨true, []⟩, fun i => ⟨true, [i]⟩, fun _ _ _ => true⟩

/-- A cache whose MatchingModels always yields an empty iterator and
whose SaveModel always fails. -/
def missCache : LocalCache :=
  ⟨⟨true, [sampleId]⟩, fun _ => ⟨false, []⟩, fun _ _ _ => false⟩

/-- A cache whose SaveModel always succeeds. -/
def okCache : LocalCache :=
  ⟨⟨true, []⟩, fun _ => ⟨false, []⟩, fun _ _ _ => true⟩

/-- An iterator factory whose construction always succeeds. -/
def createOk : ServerConfig → List Char → ModelIter :=
  fun _ path => ⟨true, [⟨path, path, ServerConfig.empty⟩]⟩

/-- An iterator factory whose construction always fails. -/
def createFail : ServerConfig → List Char → ModelIter :=
  fun _ _ => ⟨false, []⟩

/-- A transport answering every request with status 200. -/
def rest200 : RESTRequest → RESTResponse :=
  fun _ => ⟨200, "body".toList⟩

/-- A transport answering every request with status 404. -/
def rest404 : RESTRequest → RESTResponse :=
  fun _ => ⟨404, []⟩

/-- A decoder stub recording its arguments in the identifier. -/
def parseModelStub : List Char → ServerConfig → ModelIdentifier :=
  fun d s => ⟨"decoded".toList, d, s⟩

/-- Claim C1: Models(server, id) queries the cache's MatchingModels
first; when the cache yields a match it returns that iterator and never
invokes the transport (zero remote-iterator constructions), and only on a
cache miss does it construct one remote iterator scoped to the path
owner/models/name. -/
theorem ModelsWithId_cache_first (cache : LocalCache)
    (create : ServerConfig → List Char → ModelIter)
    (server : ServerConfig) (id : ModelIdentifier) :
    ((cache.matchingModels id).valid = true →
      ModelsWithId cache create server id = (cache.matchingModels id, 0)) ∧
    ((cache.matchingModels id).valid = false →
      ModelsWithId cache create server id =
        (create server (joinPaths [id.owner, modelsLit, id.name]), 1)) := by
  constructor <;> intro h <;> simp [ModelsWithId, h]

/-- Witness for claim C1 at a cache hit: the remote-call counter is 0 and
the cached iterator is returned as is. -/
theorem ModelsWithId_cache_first_witness :
    (hitCache.matchingModels sampleId).valid = true ∧
    ModelsWithId hitCache createOk sampleServer sampleId =
      (hitCache.matchingModels sampleId, 0) :=
  ⟨rfl, (ModelsWithId_cache_first hitCache createOk sampleServer sampleId).1 rfl⟩

/-- Claim C5: Models(server) returns the remote iterator over the models
path when its construction succeeds, and when construction fails it
returns the iterator over every model in the local cache (AllModels,
independent of the requested server) instead of an error. -/
theorem Models_fallback_cached (cache : LocalCache)
    (create : ServerConfig → List Char → ModelIter)
    (server : ServerConfig) :
    ((create server modelsLit).valid = false →
      Models cache create server = cache.allModels) ∧
    ((create server modelsLit).valid = true →
      Models cache create server = create server modelsLit) := by
  constructor <;> intro h <;> simp [Models, h]

/-- Witness for claim C5 at a failing iterator construction: the result
is exactly the cache's AllModels iterator. -/
theorem Models_fallback_cached_witness :
    (createFail sampleServer modelsLit).valid = false ∧
    Models missCache createFail sampleServer = missCache.allModels :=
  ⟨rfl, (Models_fallback_cached missCache createFail sampleServer).1 rfl⟩

/-- Claim C6: ModelDetails issues exactly one GET request to
server.url/server.version/owner/models/name; on status 200 the output
model is the decoded body and the result is FETCH, on any other status
the result is FETCH_ERROR, no further request is made and the output
model is returned unchanged. -/
theorem ModelDetails_single_get (rest : RESTRequest → RESTResponse)
    (parseModel : List Char → ServerConfig → ModelIdentifier)
    (server : ServerConfig) (id : ModelIdentifier) (model : ModelIdentifier) :
    (ModelDetails rest parseModel server id model).2.2 =
      [⟨RESTMethod.GET, server.url, server.version,
        joinPaths [id.owner, modelsLit, id.name]⟩] ∧
    ((rest ⟨RESTMethod.GET, server.url, server.version,
        joinPaths [id.owner, modelsLit, id.name]⟩).statusCode = 200 →
      ModelDetails rest parseModel server id model =
        (ResultType.FETCH,
         parseModel (rest ⟨RESTMethod.GET, server.url, server.version,
           joinPaths [id.owner, modelsLit, id.name]⟩).data server,
         [⟨RESTMethod.GET, server.url, server.version,
           joinPaths [id.owner, modelsLit, id.name]⟩])) ∧
    ((rest ⟨RESTMethod.GET, server.url, server.version,
        joinPaths [id.owner, modelsLit, id.name]⟩).statusCode ≠ 200 →
      ModelDetails rest parseModel server id model =
        (ResultType.FETCH_ERROR, model,
         [⟨RESTMethod.GET, server.url, server.version,
           joinPaths [id.owner, modelsLit, id.name]⟩])) := by
  refine ⟨?_, ?_, ?_⟩
  · simp only [ModelDetails]
    split <;> rfl
  · intro h
    simp only [ModelDetails]
    rw [if_neg fun hc => hc h]
  · intro h
    simp only [ModelDetails]
    rw [if_pos h]

/-- Witness for claim C6 on a status-200 transport: one request, FETCH,
and the decoded body as output model. -/
theorem ModelDetails_single_get_witness :
    (rest200 ⟨RESTMethod.GET, sampleServer.url, sampleServer.version,
      joinPaths [sampleId.owner, modelsLit, sampleId.name]⟩).statusCode =
      200 ∧
    ModelDetails rest200 parseModelStub sampleServer sampleId
      ModelIdentifier.empty =
      (ResultType.FETCH,
       parseModelStub (rest200 ⟨RESTMethod.GET, sampleServer.url,
         sampleServer.version,
         joinPaths [sampleId.owner, modelsLit, sampleId.name]⟩).data
         sampleServer,
       [⟨RESTMethod.GET, sampleServer.url, sampleServer.version,
         joinPaths [sampleId.owner, modelsLit, sampleId.name]⟩]) :=
  ⟨rfl, (ModelDetails_single_get rest200 parseModelStub sampleServer sampleId
    ModelIdentifier.empty).2.1 rfl⟩

/-- Claim C2: DownloadModel(server, id) returns FETCH_ERROR on any
non-200 status without invoking SaveModel (save counter 0), and when the
status is 200 but SaveModel (invoked with overwrite true) returns false
the overall result is FETCH_ERROR as well, not FETCH. -/
theorem DownloadModel_error_collapse (rest : RESTRequest → RESTResponse)
    (cache : LocalCache) (server : ServerConfig) (id : ModelIdentifier) :
    ((rest ⟨RESTMethod.GET, server.url, server.version,
        joinPaths [id.owner, modelsLit, id.name ++ ".zip".toList]⟩).statusCode
        ≠ 200 →
      DownloadModel rest cache server id =
        (ResultType.FETCH_ERROR,
         [⟨RESTMethod.GET, server.url, server.version,
           joinPaths [id.owner, modelsLit, id.name ++ ".zip".toList]⟩], 0)) ∧
    ((rest ⟨RESTMethod.GET, server.url, server.version,
        joinPaths [id.owner, modelsLit, id.name ++ ".zip".toList]⟩).statusCode
        = 200 →
      cache.saveModel id (rest ⟨RESTMethod.GET, server.url, server.version,
        joinPaths [id.owner, modelsLit, id.name ++ ".zip".toList]⟩).data true
        = false →
      DownloadModel rest cache server id =
        (ResultType.FETCH_ERROR,
         [⟨RESTMethod.GET, server.url, server.version,
           joinPaths [id.owner, modelsLit, id.name ++ ".zip".toList]⟩], 1)) := by
  constructor
  · intro h
    simp only [DownloadModel]
    rw [if_pos h]
  · intro h hsave
    simp only [DownloadModel]
    rw [if_neg fun hc => hc h, if_pos (by rw [hsave]; rfl)]

/-- Witness for claim C2 at status 200 with a failing cache save: the
network fetch succeeded, SaveModel was invoked once and failed, and the
overall result is FETCH_ERROR. -/
theorem DownloadModel_error_collapse_witness :
    (rest200 ⟨RESTMethod.GET, sampleServer.url, sampleServer.version,
      joinPaths [sampleId.owner, modelsLit,
        sampleId.name ++ ".zip".toList]⟩).statusCode = 200 ∧
    missCache.saveModel sampleId (rest200 ⟨RESTMethod.GET, sampleServer.url,
      sampleServer.version, joinPaths [sampleId.owner, modelsLit,
        sampleId.name ++ ".zip".toList]⟩).data true = false ∧
    DownloadModel rest200 missCache sampleServer sampleId =
      (ResultType.FETCH_ERROR,
       [⟨RESTMethod.GET, sampleServer.url, sampleServer.version,
         joinPaths [sampleId.owner, modelsLit,
           sampleId.name ++ ".zip".toList]⟩], 1) :=
  ⟨rfl, rfl, (DownloadModel_error_collapse rest200 missCache sampleServer
    sampleId).2 rfl rfl⟩

/-- A registry entry whose URL matches the sample parsed URL below. -/
def regEntry : ServerConfig :=
  ⟨"https://srv.org".toList, "2.0".toList, "reg".toList⟩

/-- A client configuration holding the one registry entry above. -/
def regConfig : ClientConfig := ⟨[regEntry], "root".toList⟩

/-- A sample versioned model URL. -/
def cUrl : List Char := "https://srv.org/1.0/alice/models/Beer".toList

/-- The captures of the sample versioned model URL. -/
def mCap : URLCaptures :=
  ⟨"https".toList, "srv.org".toList, "1.0".toList, "alice".toList,
   "Beer".toList⟩

/-- A sample string matching neither grammar (no models segment). -/
def badUrl : List Char := "https://srv.org/alice/foo/Beer".toList

/-- Claim C3: when a reference string is accepted by one of the two
grammars and the registry holds an entry whose url equals the parsed
scheme://host, ParseModelURL replaces the working descriptor wholesale
with the first such entry — url, version and local alias all come from
the registry entry and the parsed version is never applied. -/
theorem ParseModelURL_registry_replaces (config : ClientConfig)
    (url : List Char) (srv : ServerConfig) (id : ModelIdentifier)
    (m : URLCaptures) (entry : ServerConfig)
    (hm : parseCaptures url = some m)
    (hfind : config.servers.find? (fun s =>
      s.url == m.scheme ++ colonSlashSlash ++ m.server) = some entry) :
    ParseModelURL config url srv id =
      (true, entry,
       { id with owner := m.owner, name := m.name, server := entry }) := by
  rw [ParseModelURL_eq_some config url srv id m hm]
  simp only [psrv]
  rw [hfind]

/-- Witness for claim C3: parsing a URL with version 1.0 against a
registry entry with version 2.0 yields the registry entry, including its
version and local alias. -/
theorem ParseModelURL_registry_replaces_witness :
    parseCaptures cUrl = some mCap ∧
    regConfig.servers.find? (fun s =>
      s.url == mCap.scheme ++ colonSlashSlash ++ mCap.server) =
      some regEntry ∧
    ParseModelURL regConfig cUrl sampleServer sampleId =
      (true, regEntry,
       { sampleId with owner := mCap.owner, name := mCap.name, server := regEntry }) :=
  ⟨by decide, by decide,
   ParseModelURL_registry_replaces regConfig cUrl sampleServer sampleId
     mCap regEntry (by decide) (by decide)⟩

/-- Claim C8: an input string matched by neither grammar makes
ParseModelURL return false and leaves both out-parameters (server
descriptor and identifier) completely unmodified. -/
theorem ParseModelURL_no_match_unchanged (config : ClientConfig)
    (url : List Char) (srv : ServerConfig) (id : ModelIdentifier)
    (h1 : matchModelURL url = none) (h2 : matchUniqueName url = none) :
    ParseModelURL config url srv id = (false, srv, id) :=
  ParseModelURL_of_none config url srv id (parseCaptures_none url h1 h2)

/-- Witness for claim C8 on a string missing the models segment: both
grammars fail and the out-parameters are returned unchanged. -/
theorem ParseModelURL_no_match_unchanged_witness :
    matchModelURL badUrl = none ∧ matchUniqueName badUrl = none ∧
    ParseModelURL regConfig badUrl sampleServer sampleId =
      (false, sampleServer, sampleId) :=
  ⟨by decide, by decide,
   ParseModelURL_no_match_unchanged regConfig badUrl sampleServer sampleId
     (by decide) (by decide)⟩

/-- Claim C9: whenever ParseModelURL returns true, the identifier's owner
and name equal the capture groups of the matching grammar verbatim (no
case or space normalization at this point) and both are non-empty. -/
theorem ParseModelURL_owner_name_verbatim (config : ClientConfig)
    (url : List Char) (srv : ServerConfig) (id : ModelIdentifier)
    (h : (ParseModelURL config url srv id).1 = true) :
    ∃ m, parseCaptures url = some m ∧
      (ParseModelURL config url srv id).2.2.owner = m.owner ∧
      (ParseModelURL config url srv id).2.2.name = m.name ∧
      m.owner ≠ [] ∧ m.name ≠ [] := by
  cases hc : parseCaptures url with
  | none =>
    rw [ParseModelURL_of_none config url srv id hc] at h
    simp at h
  | some m =>
    have hne := parseCaptures_owner_name_ne url m hc
    refine ⟨m, rfl, ?_, ?_, hne.1, hne.2⟩
    · rw [ParseModelURL_eq_some config url srv id m hc]
    · rw [ParseModelURL_eq_some config url srv id m hc]

/-- Witness for claim C9 at the sample URL: parsing succeeds and the
identifier's owner and name are the verbatim non-empty captures. -/
theorem ParseModelURL_owner_name_verbatim_witness :
    (ParseModelURL regConfig cUrl sampleServer sampleId).1 = true ∧
    (∃ m, parseCaptures cUrl = some m ∧
      (ParseModelURL regConfig cUrl sampleServer sampleId).2.2.owner =
        m.owner ∧
      (ParseModelURL regConfig cUrl sampleServer sampleId).2.2.name =
        m.name ∧
      m.owner ≠ [] ∧ m.name ≠ []) :=
  ⟨by decide,
   ParseModelURL_owner_name_verbatim regConfig cUrl sampleServer sampleId
     (by decide)⟩

/-- Claim C7: when DownloadModel(referenceString, path) succeeds, the
output path is cacheLocation/models/owner/normalizedName, with owner the
parsed owner verbatim and normalizedName the parsed name lower-cased with
spaces replaced by underscores; the path is derived from this formula
alone. -/
theorem DownloadModelByUrl_derived_path (config : ClientConfig)
    (rest : RESTRequest → RESTResponse) (cache : LocalCache)
    (url p0 : List Char) (m : URLCaptures)
    (hm : parseCaptures url = some m)
    (hs : resultSucceeded (DownloadModelByUrl config rest cache url p0).1 =
      true) :
    (DownloadModelByUrl config rest cache url p0).2 =
      joinPaths [config.cacheLocation, modelsLit, m.owner,
        normalizeName m.name] := by
  have hp := ParseModelURL_eq_some config url ServerConfig.empty
    ModelIdentifier.empty m hm
  unfold DownloadModelByUrl at hs ⊢
  rw [hp] at hs ⊢
  simp only [Bool.not_true, Bool.false_eq_true, if_false] at hs ⊢
  split at hs
  next hcond =>
    rw [if_pos hcond]
  next hcond =>
    exact absurd hs hcond

/-- Witness for claim C7: downloading the sample URL with an
always-succeeding transport and cache yields the derived path
root/models/alice/beer. -/
theorem DownloadModelByUrl_derived_path_witness :
    parseCaptures cUrl = some mCap ∧
    resultSucceeded (DownloadModelByUrl regConfig rest200 okCache cUrl
      []).1 = true ∧
    (DownloadModelByUrl regConfig rest200 okCache cUrl []).2 =
      joinPaths [regConfig.cacheLocation, modelsLit, mCap.owner,
        normalizeName mCap.name] :=
  ⟨by decide, by decide,
   DownloadModelByUrl_derived_path regConfig rest200 okCache cUrl [] mCap
     (by decide) (by decide)⟩

/-- Claim C4: every well-formed versioned model URL
scheme://host/version/owner/models/name, with scheme over alphanumerics
plus dot, plus and minus, host, version and owner free of slashes and
whitespace, name free of slashes, and optional trailing slashes, is
accepted with the five captures equal to the original five components,
and ParseModelURL succeeds on it. -/
theorem matchModelURL_roundtrip (scheme host version owner name : List Char)
    (k : Nat) (config : ClientConfig) (srv : ServerConfig)
    (id : ModelIdentifier)
    (hs1 : scheme ≠ []) (hs2 : ∀ c ∈ scheme, isSchemeChar c = true)
    (hh1 : host ≠ []) (hh2 : ∀ c ∈ host, isHostChar c = true)
    (hv1 : version ≠ []) (hv2 : ∀ c ∈ version, isHostChar c = true)
    (ho1 : owner ≠ []) (ho2 : ∀ c ∈ owner, isHostChar c = true)
    (hn1 : name ≠ []) (hn2 : ∀ c ∈ name, isNameChar c = true) :
    matchModelURL (scheme ++ colonSlashSlash ++ host ++ ['/'] ++ version ++
      ['/'] ++ owner ++ ['/'] ++ modelsLit ++ ['/'] ++ name ++
      List.replicate k '/') = some ⟨scheme, host, version, owner, name⟩ ∧
    (ParseModelURL config (scheme ++ colonSlashSlash ++ host ++ ['/'] ++
      version ++ ['/'] ++ owner ++ ['/'] ++ modelsLit ++ ['/'] ++ name ++
      List.replicate k '/') srv id).1 = true := by
  have hmatch : matchModelURL (scheme ++ colonSlashSlash ++ host ++ ['/'] ++
      version ++ ['/'] ++ owner ++ ['/'] ++ modelsLit ++ ['/'] ++ name ++
      List.replicate k '/') = some ⟨scheme, host, version, owner, name⟩ := by
    unfold matchModelURL
    simp only [List.append_assoc]
    rw [takeWhile1_append isSchemeChar scheme _ hs1 hs2
      (by intro c hc; simp [colonSlashSlash] at hc; subst hc; decide)]
    simp only [Option.some_bind]
    rw [expectStr_append]
    simp only [Option.some_bind]
    rw [takeWhile1_append isHostChar host _ hh1 hh2
      (by intro c hc; simp at hc; subst hc; decide)]
    simp only [Option.some_bind]
    rw [slashRun1_append _ (seg_head_not_slash isHostChar version _ hv1 hv2
      isHostChar_isSlash)]
    simp only [Option.some_bind]
    rw [takeWhile1_append isHostChar version _ hv1 hv2
      (by intro c hc; simp at hc; subst hc; decide)]
    simp only [Option.some_bind]
    rw [slashRun1_append _ (seg_head_not_slash isHostChar owner _ ho1 ho2
      isHostChar_isSlash)]
    simp only [Option.some_bind]
    rw [takeWhile1_append isHostChar owner _ ho1 ho2
      (by intro c hc; simp at hc; subst hc; decide)]
    simp only [Option.some_bind]
    rw [slashRun1_append _
      (by intro c hc; simp [modelsLit] at hc; subst hc; decide)]
    simp only [Option.some_bind]
    rw [expectStr_append]
    simp only [Option.some_bind]
    rw [slashRun1_append _ (seg_head_not_slash isNameChar name _ hn1 hn2
      isNameChar_isSlash)]
    simp only [Option.some_bind]
    rw [takeWhile1_append isNameChar name _ hn1 hn2 (replicate_slash_head k)]
    simp only [Option.some_bind]
    rw [all_isSlash_replicate k]
    simp
  refine ⟨hmatch, ?_⟩
  rw [ParseModelURL_eq_some config _ srv id _
    (parseCaptures_of_matchURL _ _ hmatch)]

/-- Witness for claim C4 at a concrete URL with one trailing slash: the
five components are recovered verbatim and ParseModelURL succeeds. -/
theorem matchModelURL_roundtrip_witness :
    "https".toList ≠ [] ∧ (∀ c ∈ "https".toList, isSchemeChar c = true) ∧
    "srv.org".toList ≠ [] ∧
    (∀ c ∈ "srv.org".toList, isHostChar c = true) ∧
    "1.0".toList ≠ [] ∧ (∀ c ∈ "1.0".toList, isHostChar c = true) ∧
    "alice".toList ≠ [] ∧ (∀ c ∈ "alice".toList, isHostChar c = true) ∧
    "Beer".toList ≠ [] ∧ (∀ c ∈ "Beer".toList, isNameChar c = true) ∧
    matchModelURL ("https".toList ++ colonSlashSlash ++ "srv.org".toList ++
      ['/'] ++ "1.0".toList ++ ['/'] ++ "alice".toList ++ ['/'] ++
      modelsLit ++ ['/'] ++ "Beer".toList ++ List.replicate 1 '/') =
      some ⟨"https".toList, "srv.org".toList, "1.0".toList, "alice".toList,
        "Beer".toList⟩ ∧
    (ParseModelURL regConfig ("https".toList ++ colonSlashSlash ++
      "srv.org".toList ++ ['/'] ++ "1.0".toList ++ ['/'] ++
      "alice".toList ++ ['/'] ++ modelsLit ++ ['/'] ++ "Beer".toList ++
      List.replicate 1 '/') sampleServer sampleId).1 = true :=
  ⟨by decide, by decide, by decide, by decide, by decide, by decide,
   by decide, by decide, by decide, by decide,
   (matchModelURL_roundtrip "https".toList "srv.org".toList "1.0".toList
     "alice".toList "Beer".toList 1 regConfig sampleServer sampleId
     (by decide) (by decide) (by decide) (by decide) (by decide) (by decide)
     (by decide) (by decide) (by decide) (by decide)).1,
   (matchModelURL_roundtrip "https".toList "srv.org".toList "1.0".toList
     "alice".toList "Beer".toList 1 regConfig sampleServer sampleId
     (by decide) (by decide) (by decide) (by decide) (by decide) (by decide)
     (by decide) (by decide) (by decide) (by decide)).2⟩

/-- Claim C10: both grammars are matched against the entire input string,
so a well-formed versioned URL continued past the name by a slash and a
segment holding any non-slash character is rejected by both grammars and
ParseModelURL returns false. -/
theorem matchModelURL_whole_string (scheme host version owner name extra :
      List Char) (config : ClientConfig) (srv : ServerConfig)
    (id : ModelIdentifier)
    (hs1 : scheme ≠ []) (hs2 : ∀ c ∈ scheme, isSchemeChar c = true)
    (hh1 : host ≠ []) (hh2 : ∀ c ∈ host, isHostChar c = true)
    (hv1 : version ≠ []) (hv2 : ∀ c ∈ version, isHostChar c = true)
    (ho1 : owner ≠ []) (ho2 : ∀ c ∈ owner, isHostChar c = true)
    (hn1 : name ≠ []) (hn2 : ∀ c ∈ name, isNameChar c = true)
    (hextra : ∃ c ∈ extra, ¬ c = '/') :
    matchModelURL (scheme ++ colonSlashSlash ++ host ++ ['/'] ++ version ++
      ['/'] ++ owner ++ ['/'] ++ modelsLit ++ ['/'] ++ name ++ ['/'] ++
      extra) = none ∧
    matchUniqueName (scheme ++ colonSlashSlash ++ host ++ ['/'] ++ version ++
      ['/'] ++ owner ++ ['/'] ++ modelsLit ++ ['/'] ++ name ++ ['/'] ++
      extra) = none ∧
    ParseModelURL config (scheme ++ colonSlashSlash ++ host ++ ['/'] ++
      version ++ ['/'] ++ owner ++ ['/'] ++ modelsLit ++ ['/'] ++ name ++
      ['/'] ++ extra) srv id = (false, srv, id) := by
  obtain ⟨c0, hc0mem, hc0⟩ := hextra
  have ha : matchModelURL (scheme ++ colonSlashSlash ++ host ++ ['/'] ++
      version ++ ['/'] ++ owner ++ ['/'] ++ modelsLit ++ ['/'] ++ name ++
      ['/'] ++ extra) = none := by
    unfold matchModelURL
    simp only [List.append_assoc]
    rw [takeWhile1_append isSchemeChar scheme _ hs1 hs2
      (by intro c hc; simp [colonSlashSlash] at hc; subst hc; decide)]
    simp only [Option.some_bind]
    rw [expectStr_append]
    simp only [Option.some_bind]
    rw [takeWhile1_append isHostChar host _ hh1 hh2
      (by intro c hc; simp at hc; subst hc; decide)]
    simp only [Option.some_bind]
    rw [slashRun1_append _ (seg_head_not_slash isHostChar version _ hv1 hv2
      isHostChar_isSlash)]
    simp only [Option.some_bind]
    rw [takeWhile1_append isHostChar version _ hv1 hv2
      (by intro c hc; simp at hc; subst hc; decide)]
    simp only [Option.some_bind]
    rw [slashRun1_append _ (seg_head_not_slash isHostChar owner _ ho1 ho2
      isHostChar_isSlash)]
    simp only [Option.some_bind]
    rw [takeWhile1_append isHostChar owner _ ho1 ho2
      (by intro c hc; simp at hc; subst hc; decide)]
    simp only [Option.some_bind]
    rw [slashRun1_append _
      (by intro c hc; simp [modelsLit] at hc; subst hc; decide)]
    simp only [Option.some_bind]
    rw [expectStr_append]
    simp only [Option.some_bind]
    rw [slashRun1_append _ (seg_head_not_slash isNameChar name _ hn1 hn2
      isNameChar_isSlash)]
    simp only [Option.some_bind]
    rw [takeWhile1_append isNameChar name _ hn1 hn2
      (by intro c hc; simp at hc; subst hc; decide)]
    simp only [Option.some_bind]
    rw [all_isSlash_false (['/'] ++ extra) c0 (by simp [hc0mem]) hc0]
    rfl
  have hb : matchUniqueName (scheme ++ colonSlashSlash ++ host ++ ['/'] ++
      version ++ ['/'] ++ owner ++ ['/'] ++ modelsLit ++ ['/'] ++ name ++
      ['/'] ++ extra) = none := by
    unfold matchUniqueName
    simp only [List.append_assoc]
    rw [takeWhile1_append isSchemeChar scheme _ hs1 hs2
      (by intro c hc; simp [colonSlashSlash] at hc; subst hc; decide)]
    simp only [Option.some_bind]
    rw [expectStr_append]
    simp only [Option.some_bind]
    rw [takeWhile1_append isHostChar host _ hh1 hh2
      (by intro c hc; simp at hc; subst hc; decide)]
    simp only [Option.some_bind]
    rw [slashRun1_append _ (seg_head_not_slash isHostChar version _ hv1 hv2
      isHostChar_isSlash)]
    simp only [Option.some_bind]
    rw [takeWhile1_append isHostChar version _ hv1 hv2
      (by intro c hc; simp at hc; subst hc; decide)]
    simp only [Option.some_bind]
    rw [slashRun1_append _ (seg_head_not_slash isHostChar owner _ ho1 ho2
      isHostChar_isSlash)]
    simp only [Option.some_bind]
    by_cases howner : owner = modelsLit
    · subst howner
      rw [expectStr_append]
      simp only [Option.some_bind]
      rw [slashRun1_append _ (seg_head_not_slash isHostChar modelsLit _
        (by decide) (by decide) isHostChar_isSlash)]
      simp only [Option.some_bind]
      rw [takeWhile1_append isNameChar modelsLit _ (by decide) (by decide)
        (by intro c hc; simp at hc; subst hc; decide)]
      simp only [Option.some_bind]
      rw [all_isSlash_false (['/'] ++ (name ++ (['/'] ++ extra))) c0
        (by simp [hc0mem]) hc0]
      rfl
    · exact expectStr_owner_chain_none owner _ _ ho2 howner
  exact ⟨ha, hb, ParseModelURL_of_none config _ srv id
    (parseCaptures_none _ ha hb)⟩

/-- Witness for claim C10 at a concrete URL with one extra segment after
the name: both grammars reject it and ParseModelURL leaves its
out-parameters unchanged. -/
theorem matchModelURL_whole_string_witness :
    (∃ c ∈ "x".toList, ¬ c = '/') ∧
    matchModelURL ("https".toList ++ colonSlashSlash ++ "srv.org".toList ++
      ['/'] ++ "1.0".toList ++ ['/'] ++ "alice".toList ++ ['/'] ++
      modelsLit ++ ['/'] ++ "Beer".toList ++ ['/'] ++ "x".toList) = none ∧
    matchUniqueName ("https".toList ++ colonSlashSlash ++
      "srv.org".toList ++ ['/'] ++ "1.0".toList ++ ['/'] ++
      "alice".toList ++ ['/'] ++ modelsLit ++ ['/'] ++ "Beer".toList ++
      ['/'] ++ "x".toList) = none ∧
    ParseModelURL regConfig ("https".toList ++ colonSlashSlash ++
      "srv.org".toList ++ ['/'] ++ "1.0".toList ++ ['/'] ++
      "alice".toList ++ ['/'] ++ modelsLit ++ ['/'] ++ "Beer".toList ++
      ['/'] ++ "x".toList) sampleServer sampleId =
      (false, sampleServer, sampleId) :=
  ⟨by decide,
   matchModelURL_whole_string "https".toList "srv.org".toList "1.0".toList
     "alice".toList "Beer".toList "x".toList regConfig sampleServer sampleId
     (by decide) (by decide) (by decide) (by decide) (by decide) (by decide)
     (by decide) (by decide) (by decide) (by decide) (by decide)⟩
